import Mathlib

/-!
Verification development for the NGSI context-broker data model of this
repository (file src/filip/cb/models.py). The pydantic models
ContextMetadata, ContextAttribute, NamedContextAttribute and ContextEntity,
together with the helper create_context_entity_model, are shallowly embedded
below: each field validator is translated to an explicit function, fallible
validation returns Except, and raw wire payloads are explicit record types.
Python scalars are modelled by the inductive type PyVal, with Python floats
modelled as rationals (exact decimal literals; the binary rounding, NaN,
infinity and exponent forms of Python floats are outside the model).
-/

/-- Validation failure categories. Every failure in the source surfaces as a
pydantic ValidationError (or a raw TypeError / ConfigError escaping a
validator); the constructors below record the specific violated rule. -/
inductive VErr where
  | lengthViolation
  | charsetViolation
  | reservedNameViolation
  | typeCoercionError
  | malformedAttributePayload
  | unknownTypeTag
  | typeUnpackError
  | configError
  deriving DecidableEq, Repr

/-- Modelled from the spec: the Type Tag Registry (the DataTypes enumeration
imported from the external core.models module, whose source is not under
src/) — a closed set of NGSI value-type tags: text, number, boolean,
structured-value, relationship, date-time, geo-point. -/
inductive DataTypes where
  | text
  | number
  | boolean
  | structuredValue
  | relationship
  | dateTime
  | geoPoint
  deriving DecidableEq, Repr

/-- The NGSI wire name of each type tag (the string value of the enum). -/
def wireName : DataTypes → String
  | DataTypes.text => "Text"
  | DataTypes.number => "Number"
  | DataTypes.boolean => "Boolean"
  | DataTypes.structuredValue => "StructuredValue"
  | DataTypes.relationship => "Relationship"
  | DataTypes.dateTime => "DateTime"
  | DataTypes.geoPoint => "geo:point"

/-- Coercion of a raw wire string to a DataTypes member (pydantic enum
validation of the type field: an unknown value is a validation error). -/
def parseTypeTag (s : String) : Except VErr DataTypes :=
  if s = "Text" then Except.ok DataTypes.text
  else if s = "Number" then Except.ok DataTypes.number
  else if s = "Boolean" then Except.ok DataTypes.boolean
  else if s = "StructuredValue" then Except.ok DataTypes.structuredValue
  else if s = "Relationship" then Except.ok DataTypes.relationship
  else if s = "DateTime" then Except.ok DataTypes.dateTime
  else if s = "geo:point" then Except.ok DataTypes.geoPoint
  else Except.error VErr.unknownTypeTag

/-- Python scalar values as they appear in attribute payloads. -/
inductive PyVal where
  | pBool (b : Bool)
  | pInt (n : Int)
  | pFloat (q : Rat)
  | pStr (s : String)
  deriving DecidableEq, Repr

/-- Python truthiness, bool(v), on the modelled scalars. -/
def pyBool : PyVal → Bool
  | PyVal.pBool b => b
  | PyVal.pInt n => n != 0
  | PyVal.pFloat q => q != 0
  | PyVal.pStr s => s != ""

def digitsToNat (cs : List Char) : Nat :=
  cs.foldl (fun a c => a * 10 + (c.toNat - 48)) 0

def allDigits (cs : List Char) : Bool := cs.all Char.isDigit

/-- The optional leading sign of a float literal: a minus flips the sign of
the magnitude, a plus is consumed, anything else leaves the body as-is. -/
def stripSign (cs : List Char) : Rat × List Char :=
  match cs with
  | [] => (1, [])
  | c :: r =>
    if c = '-' then (-1, r)
    else if c = '+' then (1, r)
    else (1, c :: r)

/-- Whether a character is not the decimal point. -/
def notDot (c : Char) : Bool := c ≠ '.'

/-- The unsigned body of a float literal: integer digits with an optional
fraction after a single decimal point. -/
def pyFloatMagnitude (body : List Char) : Option Rat :=
  let ip := body.takeWhile notDot
  let rest := body.dropWhile notDot
  match rest with
  | [] =>
    if ip.isEmpty then none
    else if allDigits ip then some ((digitsToNat ip : Rat)) else none
  | _ :: frac =>
    if ip.isEmpty && frac.isEmpty then none
    else if allDigits ip && allDigits frac then
      some ((digitsToNat ip : Rat) +
        (digitsToNat frac : Rat) / ((10 : Rat) ^ frac.length))
    else none

/-- Python float(string) on plain decimal literals: optional sign, integer
digits, optional fraction after a single decimal point. Exponent forms,
inf/nan and underscores are outside the model. Returns none exactly when
Python float raises ValueError on the modelled literals. -/
def pyFloatOfChars (cs : List Char) : Option Rat :=
  let sb := stripSign cs
  (pyFloatMagnitude sb.2).map (fun q => sb.1 * q)

/-- Python float(v): numeric coercion of a scalar; fails with ValueError
(modelled as typeCoercionError) on a string with no numeric form. -/
def pyFloat : PyVal → Except VErr Rat
  | PyVal.pBool b => Except.ok (if b then 1 else 0)
  | PyVal.pInt n => Except.ok (n : Rat)
  | PyVal.pFloat q => Except.ok q
  | PyVal.pStr s =>
    match pyFloatOfChars s.toList with
    | some q => Except.ok q
    | none => Except.error VErr.typeCoercionError

/-- Decimal rendering of a natural number, most significant digit first,
with an explicit fuel argument so that the definition is structural (the
fuel is always given as more than the number of digits). -/
def natReprAux : Nat → Nat → List Char
  | 0, _ => []
  | fuel + 1, n =>
    if n < 10 then [Nat.digitChar n]
    else natReprAux fuel (n / 10) ++ [Nat.digitChar (n % 10)]

/-- Decimal rendering of a natural number (the digits of its standard
decimal numeral). -/
def natRepr (n : Nat) : List Char := natReprAux (n + 1) n

/-- Decimal rendering of an integer: optional minus sign, then the digits. -/
def intRepr (n : Int) : List Char :=
  (if n < 0 then ['-'] else []) ++ natRepr n.natAbs

/-- Python str on a float value. Integral floats render with a trailing .0
as in Python; the shortest-round-trip repr of non-integral floats is
abstracted by the exact rational rendering (numerator, slash,
denominator). -/
def pyStrOfRat (q : Rat) : String :=
  if q.den = 1 then String.mk (intRepr q.num ++ ['.', '0'])
  else String.mk (intRepr q.num ++ '/' :: natRepr q.den)

/-- Python str(v) on the modelled scalars. -/
def pyStr : PyVal → String
  | PyVal.pBool true => "True"
  | PyVal.pBool false => "False"
  | PyVal.pInt n => toString n
  | PyVal.pFloat q => pyStrOfRat q
  | PyVal.pStr s => s

/-- Python str.lower on the modelled (ASCII) strings. -/
def pyLower (s : String) : String := String.mk (s.toList.map Char.toLower)

/-- The lowercased string forms the pydantic bool validator maps to True. -/
def boolWordsTrue : List String := ["1", "on", "t", "true", "y", "yes"]

/-- The lowercased string forms the pydantic bool validator maps to
False. -/
def boolWordsFalse : List String := ["0", "off", "f", "false", "n", "no"]

/-- The pydantic field validation of the attribute value against its
declared type Union[float, int, bool, str], which runs BEFORE the
validate_value_type validator: the members are tried in declaration order,
each with coercion. The float member accepts bools, ints, floats and
numeric strings, so the int member is never reached (everything it would
accept, float accepts first); the bool member then accepts the boolean
words case-insensitively; the str member accepts any remaining string. On
the modelled scalars this coercion is total. -/
def unionCoerceValue : PyVal → PyVal
  | PyVal.pBool b => PyVal.pFloat (if b then 1 else 0)
  | PyVal.pInt n => PyVal.pFloat (n : Rat)
  | PyVal.pFloat q => PyVal.pFloat q
  | PyVal.pStr s =>
    match pyFloatOfChars s.toList with
    | some q => PyVal.pFloat q
    | none =>
      if pyLower s ∈ boolWordsTrue then PyVal.pBool true
      else if pyLower s ∈ boolWordsFalse then PyVal.pBool false
      else PyVal.pStr s

/-- Character admissibility of the FIWARE-safe regexes used by the source:
the pattern is an anchored repetition of a negative-lookahead guarded
character class, matching any character in the range x00..x7F that is not
one of the four excluded punctuation characters. Note that the class
x00..x7F includes control characters and whitespace. -/
def fiwareSafeChars (s : String) : Bool :=
  s.toList.all (fun c => c.toNat ≤ 127 && !(['?', '&', '#', '/'].contains c))

/-- Validation of ContextEntity.id and ContextEntity.type (and the plain
FIWARE-safe string fields generally): min_length=1, max_length=256, then the
anchored charset regex. -/
def validate_fiware_string (s : String) : Except VErr String :=
  if s.length < 1 then Except.error VErr.lengthViolation
  else if 256 < s.length then Except.error VErr.lengthViolation
  else if fiwareSafeChars s then Except.ok s
  else Except.error VErr.charsetViolation

/-- The trailing negative lookahead of the NamedContextAttribute.name regex,
evaluated at a given remainder of the subject string: it fails exactly when
one of the reserved words can be matched starting at that position. -/
def reservedAt (rest : String) : Bool :=
  rest.startsWith "id" || rest.startsWith "type" ||
    rest.startsWith "geo:distance" || rest.startsWith "*"

/-- Matching of the NamedContextAttribute.name regex. The pattern is the
fully anchored charset group followed by the reserved-word negative
lookahead; because the group is anchored with a dollar, the lookahead is
evaluated at the end-of-string position, i.e. on the empty remainder. -/
def name_regex_matches (s : String) : Bool :=
  fiwareSafeChars s && !(reservedAt (s.drop s.length))

/-- Validation of NamedContextAttribute.name: length bounds, then the name
regex. -/
def validate_name (s : String) : Except VErr String :=
  if s.length < 1 then Except.error VErr.lengthViolation
  else if 256 < s.length then Except.error VErr.lengthViolation
  else if name_regex_matches s then Except.ok s
  else Except.error VErr.charsetViolation

/-- The raw metadata slot of an attribute payload: the key can be missing
(pydantic then applies the default empty dict, and since ContextAttribute
has no validate_all config, the validator is skipped for the default), can
be an explicit Python None, or can be a mapping. A ContextMetadata instance
supplied here is converted to a mapping by the Union coercion of the field
type, so the mapping case covers it. -/
inductive RawMeta where
  | absent
  | null
  | dict (m : List (String × PyVal))
  deriving DecidableEq, Repr

/-- A raw attribute payload from the flat wire object: optional type tag
string (missing means the declared default, DataTypes.TEXT), a scalar
value, and the metadata slot. -/
structure RawAttr where
  type : Option String
  value : PyVal
  metadata : RawMeta
  deriving DecidableEq, Repr

/-- The validator ContextAttribute.validate_value_type: exactly three
branches on the already validated sibling type field. The source tests the
tag with equality against the enum members; matching on the constructors is
the same decision. -/
def validate_value_type (type_ : DataTypes) (v : PyVal) : Except VErr PyVal :=
  match type_ with
  | DataTypes.boolean => Except.ok (PyVal.pBool (pyBool v))
  | DataTypes.number =>
    match pyFloat v with
    | Except.ok q => Except.ok (PyVal.pFloat q)
    | Except.error e => Except.error e
  | _ => Except.ok (PyVal.pStr (pyStr v))

/-- The validator ContextAttribute.validate_metadata_type on a mapping
input: an empty dict is returned as-is; a NON-empty dict falls through every
branch of the validator body, so Python returns None and the stored metadata
becomes None. (The branch constructing ContextMetadata is only reached for a
non-dict input, which the Union coercion of the field makes unreachable for
mappings.) -/
def validate_metadata_type (m : List (String × PyVal)) :
    Option (List (String × PyVal)) :=
  if m.isEmpty then some m else none

/-- An in-memory ContextAttribute: validated tag, coerced value, and the
stored metadata (some m for a dict, none for Python None). -/
structure ContextAttribute where
  type : DataTypes
  value : PyVal
  metadata : Option (List (String × PyVal))
  deriving DecidableEq, Repr

/-- ContextAttribute.parse_obj on a raw payload: fields are validated in
declaration order — type (enum coercion, defaulting to TEXT when missing),
then value (first the Union field coercion of the declared value type, then
validate_value_type against the sibling tag), then metadata
(validate_metadata_type; an explicit None reaches the validator and the
expression ContextMetadata unpacking None raises a TypeError, which pydantic
wraps into a ValidationError). -/
def ContextAttribute.parse_obj (r : RawAttr) : Except VErr ContextAttribute :=
  match (match r.type with
         | none => Except.ok DataTypes.text
         | some s => parseTypeTag s) with
  | Except.error e => Except.error e
  | Except.ok tag =>
    match validate_value_type tag (unionCoerceValue r.value) with
    | Except.error e => Except.error e
    | Except.ok v =>
      match r.metadata with
      | RawMeta.absent => Except.ok ⟨tag, v, some []⟩
      | RawMeta.null => Except.error VErr.typeUnpackError
      | RawMeta.dict m => Except.ok ⟨tag, v, validate_metadata_type m⟩

/-- A NamedContextAttribute: a ContextAttribute plus its name field. -/
structure NamedContextAttribute extends ContextAttribute where
  name : String
  deriving DecidableEq, Repr

/-- Construction of a NamedContextAttribute from a name and a raw attribute
payload: the inherited fields validate as in ContextAttribute, the name
validates against the name regex. -/
def NamedContextAttribute.parse (nm : String) (r : RawAttr) :
    Except VErr NamedContextAttribute :=
  match ContextAttribute.parse_obj r with
  | Except.error e => Except.error e
  | Except.ok a =>
    match validate_name nm with
    | Except.error e => Except.error e
    | Except.ok n => Except.ok ⟨a, n⟩

/-- An in-memory ContextEntity: the two fixed identity fields plus the
ordered map of dynamic attributes (insertion-ordered association list, as a
Python dict is). -/
structure ContextEntity where
  id : String
  type : String
  attrs : List (String × ContextAttribute)
  deriving DecidableEq, Repr

/-- ContextEntity._validate_properties: the dict comprehension parsing every
key of the raw data that is not a declared field (id, type) through
ContextAttribute.parse_obj, in insertion order; the first failing attribute
aborts with its own error. -/
def parseProps : List (String × RawAttr) →
    Except VErr (List (String × ContextAttribute))
  | [] => Except.ok []
  | (k, r) :: rest =>
    if k = "id" ∨ k = "type" then parseProps rest
    else
      match ContextAttribute.parse_obj r with
      | Except.error e => Except.error e
      | Except.ok a =>
        match parseProps rest with
        | Except.error e => Except.error e
        | Except.ok tail => Except.ok ((k, a) :: tail)

/-- ContextEntity construction: the dynamic attributes are parsed first
(the init method calls _validate_properties before delegating to the
pydantic constructor), then id and type are validated; extra fields are
stored without further validation. -/
def construct (id type_ : String) (data : List (String × RawAttr)) :
    Except VErr ContextEntity :=
  match parseProps data with
  | Except.error e => Except.error e
  | Except.ok attrs =>
    match validate_fiware_string id with
    | Except.error e => Except.error e
    | Except.ok i =>
      match validate_fiware_string type_ with
      | Except.error e => Except.error e
      | Except.ok t => Except.ok ⟨i, t, attrs⟩

/-- An attribute object of the flat wire format. -/
structure FlatAttr where
  type : String
  value : PyVal
  metadata : Option (List (String × PyVal))
  deriving DecidableEq, Repr

/-- The flat wire object: id, type, and one key per attribute. -/
structure FlatEntity where
  id : String
  type : String
  attrs : List (String × FlatAttr)
  deriving DecidableEq, Repr

/-- Serialization of one stored attribute into its wire object, as the
pydantic dict method renders it: the enum tag by its string value, the
coerced value, and the stored metadata (None serializing as null). -/
def serializeAttr (a : ContextAttribute) : FlatAttr :=
  ⟨wireName a.type, a.value, a.metadata⟩

/-- Serialization of an entity into the flat wire object (the pydantic dict
method: the declared fields plus every extra attribute). -/
def serialize (e : ContextEntity) : FlatEntity :=
  ⟨e.id, e.type, e.attrs.map (fun kv => (kv.1, serializeAttr kv.2))⟩

/-- Canonical coercion as the round-trip clause of the spec words it:
numbers normalized to float, booleans to bool, other values to their string
representation. Stated independently of validate_value_type, to be compared
with it. -/
def specCoerceValue (t : DataTypes) (v : PyVal) : Except VErr PyVal :=
  match t with
  | DataTypes.number =>
    match pyFloat v with
    | Except.ok q => Except.ok (PyVal.pFloat q)
    | Except.error e => Except.error e
  | DataTypes.boolean => Except.ok (PyVal.pBool (pyBool v))
  | _ => Except.ok (PyVal.pStr (pyStr v))

/-- Canonicalization of one raw attribute as the round-trip claim words it:
the tag resolved to its wire name (default text), the value canonically
coerced, the default empty metadata inserted when the slot is absent, and
the original metadata reproduced otherwise. -/
def specCanonAttr (r : RawAttr) : Except VErr FlatAttr :=
  match (match r.type with
         | none => Except.ok DataTypes.text
         | some s => parseTypeTag s) with
  | Except.error e => Except.error e
  | Except.ok tag =>
    match specCoerceValue tag r.value with
    | Except.error e => Except.error e
    | Except.ok v =>
      Except.ok ⟨wireName tag, v,
        match r.metadata with
        | RawMeta.absent => some []
        | RawMeta.null => none
        | RawMeta.dict m => some m⟩

/-- Canonicalization of the attribute list of a flat object. -/
def specCanonList : List (String × RawAttr) →
    Except VErr (List (String × FlatAttr))
  | [] => Except.ok []
  | (k, r) :: rest =>
    match specCanonAttr r with
    | Except.error e => Except.error e
    | Except.ok fa =>
      match specCanonList rest with
      | Except.error e => Except.error e
      | Except.ok tail => Except.ok ((k, fa) :: tail)

/-- Canonicalization of a whole flat entity object, per the round-trip
claim AS STATED: identity fields unchanged, every attribute canonicalized
with the plain per-tag coercion. -/
def specCanonEntity (id type_ : String) (data : List (String × RawAttr)) :
    Except VErr FlatEntity :=
  match specCanonList data with
  | Except.error e => Except.error e
  | Except.ok attrs => Except.ok ⟨id, type_, attrs⟩

/-- Canonical coercion as the AMENDED round-trip claim words it: the Union
field coercion of the host runs first, then the per-tag coercion. -/
def specCoerceValueFull (t : DataTypes) (v : PyVal) : Except VErr PyVal :=
  specCoerceValue t (unionCoerceValue v)

/-- Canonicalization of one raw attribute per the amended round-trip claim:
the tag resolved to its wire name (default text), the value coerced by the
full pipeline (Union coercion then per-tag coercion), the default empty
metadata inserted when the slot is absent, and the original metadata
reproduced otherwise. -/
def specCanonAttrFull (r : RawAttr) : Except VErr FlatAttr :=
  match (match r.type with
         | none => Except.ok DataTypes.text
         | some s => parseTypeTag s) with
  | Except.error e => Except.error e
  | Except.ok tag =>
    match specCoerceValueFull tag r.value with
    | Except.error e => Except.error e
    | Except.ok v =>
      Except.ok ⟨wireName tag, v,
        match r.metadata with
        | RawMeta.absent => some []
        | RawMeta.null => none
        | RawMeta.dict m => some m⟩

/-- Canonicalization of the attribute list, amended-claim version. -/
def specCanonListFull : List (String × RawAttr) →
    Except VErr (List (String × FlatAttr))
  | [] => Except.ok []
  | (k, r) :: rest =>
    match specCanonAttrFull r with
    | Except.error e => Except.error e
    | Except.ok fa =>
      match specCanonListFull rest with
      | Except.error e => Except.error e
      | Except.ok tail => Except.ok ((k, fa) :: tail)

/-- Canonicalization of a whole flat entity object per the amended
round-trip claim. -/
def specCanonEntityFull (id type_ : String) (data : List (String × RawAttr)) :
    Except VErr FlatEntity :=
  match specCanonListFull data with
  | Except.error e => Except.error e
  | Except.ok attrs => Except.ok ⟨id, type_, attrs⟩

/-- The re-parsing step of get_properties and get_relationships: each
surviving attribute is rebuilt with ContextAttribute on the keyword
expansion of its dict rendering — the enum tag by its wire name, the stored
value, and the stored metadata (an explicit None when the stored metadata is
None). -/
def reparse_attr (a : ContextAttribute) : Except VErr ContextAttribute :=
  ContextAttribute.parse_obj ⟨some (wireName a.type), a.value,
    match a.metadata with
    | some m => RawMeta.dict m
    | none => RawMeta.null⟩

/-- The dict-view comprehension of get_properties and get_relationships: it
walks the attribute entries in order, keeps those satisfying the tag
predicate, and re-parses each kept attribute; the first re-parse failure
aborts with its error. -/
def reparseFiltered (p : String × ContextAttribute → Bool) :
    List (String × ContextAttribute) →
    Except VErr (List (String × ContextAttribute))
  | [] => Except.ok []
  | kv :: rest =>
    if p kv then
      match reparse_attr kv.2 with
      | Except.error e => Except.error e
      | Except.ok a =>
        match reparseFiltered p rest with
        | Except.error e => Except.error e
        | Except.ok tail => Except.ok ((kv.1, a) :: tail)
    else reparseFiltered p rest

/-- ContextEntity.get_properties with format dict: the attributes whose tag
is not the relationship tag (the source compares with the is operator
against the enum member, which on enum singletons is equality). -/
def get_properties_dict (e : ContextEntity) :
    Except VErr (List (String × ContextAttribute)) :=
  reparseFiltered (fun kv => !(kv.2.type == DataTypes.relationship)) e.attrs

/-- ContextEntity.get_relationships with format dict: the mirror view,
restricted to attributes whose tag is the relationship tag. -/
def get_relationships_dict (e : ContextEntity) :
    Except VErr (List (String × ContextAttribute)) :=
  reparseFiltered (fun kv => kv.2.type == DataTypes.relationship) e.attrs

/-- Assignment of one dynamic attribute on the entity object: a Python
attribute set on the instance dict overwrites an existing key in place and
appends a new key at the end. -/
def setAttr : List (String × ContextAttribute) → String → ContextAttribute →
    List (String × ContextAttribute)
  | [], k, a => [(k, a)]
  | (k0, a0) :: rest, k, a =>
    if k0 = k then (k0, a) :: rest else (k0, a0) :: setAttr rest k a

/-- The argument of add_properties: either a name-to-attribute mapping or a
sequence of NamedContextAttribute. -/
inductive AttrsArg where
  | dict (m : List (String × ContextAttribute))
  | list (l : List NamedContextAttribute)

/-- The assignment loop of add_properties over a mapping: each entry is set
on the instance in order. Setting the declared fields id or type would
re-validate a ContextAttribute against a string field and fail; dynamic
keys are stored without validation. -/
def applySets (e : ContextEntity) :
    List (String × ContextAttribute) → Except VErr ContextEntity
  | [] => Except.ok e
  | (k, a) :: rest =>
    if k = "id" ∨ k = "type" then Except.error VErr.charsetViolation
    else applySets ⟨e.id, e.type, setAttr e.attrs k a⟩ rest

/-- ContextEntity.add_properties: a mapping argument goes straight to the
assignment loop; a sequence argument is first normalized by the dict
comprehension whose value expression expands each NamedContextAttribute
with double-star keyword unpacking — a pydantic model is not a mapping, so
the first element raises a TypeError and a non-empty sequence never reaches
the loop. -/
def add_properties (e : ContextEntity) : AttrsArg → Except VErr ContextEntity
  | AttrsArg.dict m => applySets e m
  | AttrsArg.list [] => applySets e []
  | AttrsArg.list (_ :: _) => Except.error VErr.typeUnpackError

/-- The result shape of create_context_entity_model: the model name and the
required dynamic fields, each constrained to the ContextAttribute shape. -/
structure EntityModelSpec where
  name : String
  requiredAttrFields : List String
  deriving DecidableEq, Repr

/-- create_context_entity_model: the required dynamic fields are the sample
keys outside the declared entity fields; the validators mapping installs a
validator hardcoded to the field temperature, and pydantic model creation
raises a ConfigError when a validator names a field absent from the model
(the declared fields id and type plus the dynamic ones). The validator
function itself returns its argument unchanged. -/
def create_context_entity_model (name : Option String)
    (dataKeys : List String) : Except VErr EntityModelSpec :=
  let properties := dataKeys.filter (fun k => !(k == "id" || k == "type"))
  if ("id" :: "type" :: properties).contains "temperature" then
    Except.ok ⟨name.getD "GeneratedContextEntity", properties⟩
  else Except.error VErr.configError

deriving instance DecidableEq for Except

/-- Helper: the value coercer is idempotent — a value it has produced is a
fixpoint of a second application against the same tag. -/
theorem validate_value_type_idem (t : DataTypes) (v w : PyVal)
    (h : validate_value_type t v = Except.ok w) :
    validate_value_type t w = Except.ok w := by
  cases t with
  | number =>
    cases hq : pyFloat v with
    | ok q =>
      simp [validate_value_type, hq] at h
      subst h
      simp [validate_value_type, pyFloat]
    | error e => simp [validate_value_type, hq] at h
  | boolean =>
    simp [validate_value_type] at h
    subst h
    simp [validate_value_type, pyBool]
  | text =>
    simp [validate_value_type] at h
    subst h
    simp [validate_value_type, pyStr]
  | structuredValue =>
    simp [validate_value_type] at h
    subst h
    simp [validate_value_type, pyStr]
  | relationship =>
    simp [validate_value_type] at h
    subst h
    simp [validate_value_type, pyStr]
  | dateTime =>
    simp [validate_value_type] at h
    subst h
    simp [validate_value_type, pyStr]
  | geoPoint =>
    simp [validate_value_type] at h
    subst h
    simp [validate_value_type, pyStr]

/-- Helper: the enum round trip — parsing the wire name of a tag yields the
tag back. -/
theorem parseTypeTag_wireName (t : DataTypes) :
    parseTypeTag (wireName t) = Except.ok t := by
  cases t <;> rfl

/-- Helper: the canonical coercion written from the round-trip clause of the
spec agrees with the value coercer of the source. -/
theorem specCoerceValue_eq (t : DataTypes) (v : PyVal) :
    specCoerceValue t v = validate_value_type t v := by
  cases t <;> rfl

/-- Helper: the amended-claim coercion is the value pipeline of the
source — Union coercion then the per-tag coercer. -/
theorem specCoerceValueFull_eq (t : DataTypes) (v : PyVal) :
    specCoerceValueFull t v = validate_value_type t (unionCoerceValue v) := by
  unfold specCoerceValueFull
  rw [specCoerceValue_eq]

/-- Helper: the digit accumulator on a snoc list. -/
theorem digitsToNat_append (l : List Char) (c : Char) :
    digitsToNat (l ++ [c]) = digitsToNat l * 10 + (c.toNat - 48) := by
  simp [digitsToNat, List.foldl_append]

/-- Helper: the digit character of a value below ten is a digit. -/
theorem digitChar_isDigit (n : Nat) (h : n < 10) :
    (Nat.digitChar n).isDigit = true := by
  interval_cases n <;> decide

/-- Helper: the numeric value of the digit character of a value below
ten. -/
theorem digitChar_toNat (n : Nat) (h : n < 10) :
    (Nat.digitChar n).toNat - 48 = n := by
  interval_cases n <;> decide

/-- Helper: a digit character is none of the punctuation characters of a
float literal or a rational rendering. -/
theorem isDigit_ne (c : Char) (h : c.isDigit = true) :
    c ≠ '.' ∧ c ≠ '-' ∧ c ≠ '+' ∧ c ≠ '/' := by
  refine ⟨?_, ?_, ?_, ?_⟩ <;> (intro hc; subst hc; exact absurd h (by decide))

/-- Helper: correctness of the fuelled decimal renderer — on enough fuel it
produces a non-empty all-digit list whose numeric value is the input. -/
theorem natReprAux_correct (fuel : Nat) : ∀ n : Nat, n < 10 ^ (fuel + 1) →
    digitsToNat (natReprAux (fuel + 1) n) = n ∧
      allDigits (natReprAux (fuel + 1) n) = true ∧
      natReprAux (fuel + 1) n ≠ [] := by
  induction fuel with
  | zero =>
    intro n hn
    have h10 : n < 10 := by simpa using hn
    unfold natReprAux
    rw [if_pos h10]
    refine ⟨?_, ?_, by simp⟩
    · simp [digitsToNat, digitChar_toNat n h10]
    · simp [allDigits, digitChar_isDigit n h10]
  | succ f ih =>
    intro n hn
    by_cases h10 : n < 10
    · unfold natReprAux
      rw [if_pos h10]
      refine ⟨?_, ?_, by simp⟩
      · simp [digitsToNat, digitChar_toNat n h10]
      · simp [allDigits, digitChar_isDigit n h10]
    · have hdiv : n / 10 < 10 ^ (f + 1) := by
        rw [Nat.div_lt_iff_lt_mul (by norm_num)]
        calc n < 10 ^ (f + 1 + 1) := hn
        _ = 10 ^ (f + 1) * 10 := by ring
      obtain ⟨ih1, ih2, ih3⟩ := ih (n / 10) hdiv
      have hmod : n % 10 < 10 := Nat.mod_lt n (by norm_num)
      constructor
      · show digitsToNat (natReprAux (f + 1 + 1) n) = n
        unfold natReprAux
        rw [if_neg h10, digitsToNat_append, ih1, digitChar_toNat _ hmod]
        omega
      constructor
      · show allDigits (natReprAux (f + 1 + 1) n) = true
        unfold natReprAux
        rw [if_neg h10]
        simp [allDigits] at ih2 ⊢
        exact ⟨ih2, digitChar_isDigit _ hmod⟩
      · show natReprAux (f + 1 + 1) n ≠ []
        unfold natReprAux
        rw [if_neg h10]
        simp

/-- Helper: correctness of the decimal renderer. -/
theorem natRepr_correct (n : Nat) :
    digitsToNat (natRepr n) = n ∧ allDigits (natRepr n) = true ∧
      natRepr n ≠ [] := by
  refine natReprAux_correct n n ?_
  calc n < 10 ^ n := Nat.lt_pow_self (by norm_num) n
  _ ≤ 10 ^ (n + 1) := Nat.pow_le_pow_right (by norm_num) (Nat.le_succ n)

/-- Helper: takeWhile and dropWhile walk through a prefix every element of
which satisfies the predicate. -/
theorem takeWhile_append_all (p : Char → Bool) (l1 l2 : List Char)
    (h : ∀ c ∈ l1, p c = true) :
    (l1 ++ l2).takeWhile p = l1 ++ l2.takeWhile p ∧
      (l1 ++ l2).dropWhile p = l2.dropWhile p := by
  induction l1 with
  | nil => simp
  | cons c t ih =>
    have hc : p c = true := h c (List.mem_cons_self c t)
    have ht : ∀ x ∈ t, p x = true := fun x hx => h x (List.mem_cons_of_mem c hx)
    obtain ⟨ih1, ih2⟩ := ih ht
    constructor
    · simp [List.takeWhile_cons, hc, ih1]
    · simp [List.dropWhile_cons, hc, ih2]

/-- Helper: the sign stripper leaves a digit-headed literal unchanged with
positive sign. -/
theorem stripSign_digit (c : Char) (t : List Char) (h : c.isDigit = true) :
    stripSign (c :: t) = (1, c :: t) := by
  obtain ⟨h1, h2, h3, h4⟩ := isDigit_ne c h
  show (if c = '-' then ((-1 : Rat), t)
        else if c = '+' then (1, t) else (1, c :: t)) = (1, c :: t)
  rw [if_neg h2, if_neg h3]

/-- Helper: a digit character is not the decimal point. -/
theorem notDot_of_isDigit (c : Char) (h : c.isDigit = true) :
    notDot c = true := by
  have h1 := (isDigit_ne c h).1
  simp [notDot, h1]

/-- Helper: the magnitude parser inverts the decimal renderer followed by
the dot-zero suffix. -/
theorem pyFloatMagnitude_natDot (m : Nat) :
    pyFloatMagnitude (natRepr m ++ ['.', '0']) = some (m : Rat) := by
  obtain ⟨hval, hdig, hne⟩ := natRepr_correct m
  have hall : ∀ c ∈ natRepr m, notDot c = true :=
    fun c hc => notDot_of_isDigit c (List.all_eq_true.mp hdig c hc)
  obtain ⟨ht, hd⟩ := takeWhile_append_all notDot (natRepr m) ['.', '0'] hall
  have ht2 : List.takeWhile notDot ['.', '0'] = [] := by decide
  have hd2 : List.dropWhile notDot ['.', '0'] = ['.', '0'] := by decide
  rw [ht2] at ht
  rw [hd2] at hd
  have hz : digitsToNat ['0'] = 0 := by decide
  have ha : allDigits ['0'] = true := by decide
  have hemp : (natRepr m).isEmpty = false := by
    cases hr : natRepr m
    · exact absurd hr hne
    · rfl
  unfold pyFloatMagnitude
  rw [ht, hd, List.append_nil]
  simp [hemp, hdig, hval, hz, ha]

/-- Helper: on a digit-headed character list the float parser is the plain
magnitude parser with positive sign. -/
theorem pyFloatOfChars_digit_head (c : Char) (t : List Char)
    (hc : c.isDigit = true) :
    pyFloatOfChars (c :: t) = pyFloatMagnitude (c :: t) := by
  show (pyFloatMagnitude (stripSign (c :: t)).2).map
      (fun q => (stripSign (c :: t)).1 * q) = pyFloatMagnitude (c :: t)
  rw [stripSign_digit c t hc]
  cases pyFloatMagnitude (c :: t) <;> simp

/-- Helper: on a minus-headed character list the float parser negates the
magnitude of the tail. -/
theorem pyFloatOfChars_neg_head (t : List Char) :
    pyFloatOfChars ('-' :: t)
      = (pyFloatMagnitude t).map (fun q => (-1 : Rat) * q) := rfl

/-- Helper: the float parser inverts the decimal renderer followed by the
dot-zero suffix. -/
theorem pyFloatOfChars_natDot (m : Nat) :
    pyFloatOfChars (natRepr m ++ ['.', '0']) = some (m : Rat) := by
  obtain ⟨hval, hdig, hne⟩ := natRepr_correct m
  obtain ⟨c, t, hr⟩ : ∃ c t, natRepr m = c :: t := by
    cases hrr : natRepr m with
    | nil => exact absurd hrr hne
    | cons c t => exact ⟨c, t, rfl⟩
  have hc : c.isDigit = true :=
    List.all_eq_true.mp hdig c (by rw [hr]; exact List.mem_cons_self c t)
  have hshape : natRepr m ++ ['.', '0'] = c :: (t ++ ['.', '0']) := by
    rw [hr, List.cons_append]
  rw [hshape, pyFloatOfChars_digit_head c (t ++ ['.', '0']) hc, ← hshape,
    pyFloatMagnitude_natDot]

/-- Helper: the float parser inverts the signed integer renderer followed
by the dot-zero suffix. -/
theorem pyFloatOfChars_intDot (n : Int) :
    pyFloatOfChars (intRepr n ++ ['.', '0']) = some ((n : Rat)) := by
  unfold intRepr
  by_cases hn : n < 0
  · rw [if_pos hn]
    have hshape : (['-'] ++ natRepr n.natAbs) ++ ['.', '0']
        = '-' :: (natRepr n.natAbs ++ ['.', '0']) := by simp
    have hcast : ((n.natAbs : Rat)) = -(n : Rat) := by
      rw [Nat.cast_natAbs, abs_of_neg hn]
      push_cast
      ring
    rw [hshape, pyFloatOfChars_neg_head, pyFloatMagnitude_natDot]
    show some ((-1 : Rat) * ((n.natAbs : Rat))) = some ((n : Rat))
    rw [hcast]
    norm_num
  · rw [if_neg hn, List.nil_append, pyFloatOfChars_natDot]
    have h3 : ((n.natAbs : Rat)) = (n : Rat) := by
      rw [Nat.cast_natAbs, abs_of_nonneg (le_of_not_lt hn)]
    rw [h3]

/-- Helper: parsing the rendering of an integral rational recovers it. -/
theorem pyStrOfRat_parse (q : Rat) (h : q.den = 1) :
    pyFloatOfChars (pyStrOfRat q).toList = some q := by
  unfold pyStrOfRat
  rw [if_pos h]
  have hl : (String.mk (intRepr q.num ++ ['.', '0'])).toList
      = intRepr q.num ++ ['.', '0'] := rfl
  rw [hl, pyFloatOfChars_intDot, (Rat.den_eq_one_iff q).mp h]

/-- Helper: the magnitude parser rejects the slash rendering of a
non-integral rational. -/
theorem pyFloatMagnitude_slash (a b : Nat) :
    pyFloatMagnitude (natRepr a ++ '/' :: natRepr b) = none := by
  obtain ⟨hva, hda, hna⟩ := natRepr_correct a
  obtain ⟨hvb, hdb, hnb⟩ := natRepr_correct b
  have hall : ∀ c ∈ natRepr a ++ '/' :: natRepr b, notDot c = true := by
    intro c hc
    rcases List.mem_append.mp hc with hc | hc
    · exact notDot_of_isDigit c (List.all_eq_true.mp hda c hc)
    · rcases List.mem_cons.mp hc with hc | hc
      · subst hc; decide
      · exact notDot_of_isDigit c (List.all_eq_true.mp hdb c hc)
  have ht : (natRepr a ++ '/' :: natRepr b).takeWhile notDot
      = natRepr a ++ '/' :: natRepr b := List.takeWhile_eq_self_iff.mpr hall
  have hd : (natRepr a ++ '/' :: natRepr b).dropWhile notDot = [] :=
    List.dropWhile_eq_nil_iff.mpr hall
  have hemp : (natRepr a ++ '/' :: natRepr b).isEmpty = false := by
    cases hr : natRepr a
    · exact absurd hr hna
    · rfl
  have hdig2 : allDigits (natRepr a ++ '/' :: natRepr b) = false := by
    have hmem : '/' ∈ natRepr a ++ '/' :: natRepr b :=
      List.mem_append.mpr (Or.inr (List.mem_cons_self _ _))
    cases hall2 : allDigits (natRepr a ++ '/' :: natRepr b)
    · rfl
    · exact absurd (List.all_eq_true.mp hall2 '/' hmem) (by decide)
  unfold pyFloatMagnitude
  rw [ht, hd]
  simp [hemp, hdig2]

/-- Helper: the float parser rejects the slash rendering of a non-integral
rational, whose character list contains the slash. -/
theorem pyStrOfRat_slash_parse (q : Rat) (h : ¬ q.den = 1) :
    pyFloatOfChars (pyStrOfRat q).toList = none ∧
      '/' ∈ (pyStrOfRat q).toList := by
  unfold pyStrOfRat
  rw [if_neg h]
  have hl : (String.mk (intRepr q.num ++ '/' :: natRepr q.den)).toList
      = intRepr q.num ++ '/' :: natRepr q.den := rfl
  rw [hl]
  refine ⟨?_, by simp⟩
  unfold intRepr
  by_cases hn : q.num < 0
  · rw [if_pos hn]
    have hshape : (['-'] ++ natRepr q.num.natAbs) ++ '/' :: natRepr q.den
        = '-' :: (natRepr q.num.natAbs ++ '/' :: natRepr q.den) := by simp
    rw [hshape, pyFloatOfChars_neg_head, pyFloatMagnitude_slash]
    rfl
  · rw [if_neg hn, List.nil_append]
    obtain ⟨hva, hda, hna⟩ := natRepr_correct q.num.natAbs
    obtain ⟨c, t, hr⟩ : ∃ c t, natRepr q.num.natAbs = c :: t := by
      cases hrr : natRepr q.num.natAbs with
      | nil => exact absurd hrr hna
      | cons c t => exact ⟨c, t, rfl⟩
    have hc : c.isDigit = true :=
      List.all_eq_true.mp hda c (by rw [hr]; exact List.mem_cons_self c t)
    have hshape : natRepr q.num.natAbs ++ '/' :: natRepr q.den
        = c :: (t ++ '/' :: natRepr q.den) := by
      rw [hr, List.cons_append]
    rw [hshape, pyFloatOfChars_digit_head c _ hc, ← hshape,
      pyFloatMagnitude_slash]

/-- Helper: a string containing a slash is, lowercased, none of the boolean
words of the pydantic bool validator. -/
theorem pyLower_slash_not_words (s : String) (hs : '/' ∈ s.toList) :
    ¬ pyLower s ∈ boolWordsTrue ∧ ¬ pyLower s ∈ boolWordsFalse := by
  have hmem : '/' ∈ (pyLower s).toList := by
    have h0 : (pyLower s).toList = s.toList.map Char.toLower := rfl
    rw [h0]
    exact List.mem_map.mpr ⟨'/', hs, by decide⟩
  constructor
  · intro hw
    simp [boolWordsTrue] at hw
    rcases hw with h|h|h|h|h|h <;> (rw [h] at hmem; exact absurd hmem (by decide))
  · intro hw
    simp [boolWordsFalse] at hw
    rcases hw with h|h|h|h|h|h <;> (rw [h] at hmem; exact absurd hmem (by decide))

/-- Helper: the possible shapes of a Union-coerced value — a float, a bool,
or a string that parses as neither a float nor a boolean word. -/
theorem unionCoerce_cases (v : PyVal) :
    (∃ q, unionCoerceValue v = PyVal.pFloat q) ∨
      (∃ b, unionCoerceValue v = PyVal.pBool b) ∨
      (∃ s, unionCoerceValue v = PyVal.pStr s ∧
        pyFloatOfChars s.toList = none ∧
        ¬ pyLower s ∈ boolWordsTrue ∧ ¬ pyLower s ∈ boolWordsFalse) := by
  cases v with
  | pBool b => exact Or.inl ⟨_, rfl⟩
  | pInt n => exact Or.inl ⟨_, rfl⟩
  | pFloat q => exact Or.inl ⟨_, rfl⟩
  | pStr s =>
    have hun : unionCoerceValue (PyVal.pStr s)
        = (match pyFloatOfChars s.toList with
           | some q => PyVal.pFloat q
           | none =>
             if pyLower s ∈ boolWordsTrue then PyVal.pBool true
             else if pyLower s ∈ boolWordsFalse then PyVal.pBool false
             else PyVal.pStr s) := rfl
    cases hf : pyFloatOfChars s.toList with
    | some q =>
      refine Or.inl ⟨q, ?_⟩
      rw [hun, hf]
    | none =>
      rw [hf] at hun
      by_cases h1 : pyLower s ∈ boolWordsTrue
      · refine Or.inr (Or.inl ⟨true, ?_⟩)
        rw [hun, if_pos h1]
      · by_cases h2 : pyLower s ∈ boolWordsFalse
        · refine Or.inr (Or.inl ⟨false, ?_⟩)
          rw [hun, if_neg h1, if_pos h2]
        · refine Or.inr (Or.inr ⟨s, ?_, hf, h1, h2⟩)
          rw [hun, if_neg h1, if_neg h2]

/-- Helper: the Union coercion of a string that is neither numeric nor a
boolean word is that string. -/
theorem unionCoerce_plain_str (s : String)
    (hf : pyFloatOfChars s.toList = none)
    (h1 : ¬ pyLower s ∈ boolWordsTrue) (h2 : ¬ pyLower s ∈ boolWordsFalse) :
    unionCoerceValue (PyVal.pStr s) = PyVal.pStr s := by
  have hun : unionCoerceValue (PyVal.pStr s)
      = (match pyFloatOfChars s.toList with
         | some q => PyVal.pFloat q
         | none =>
           if pyLower s ∈ boolWordsTrue then PyVal.pBool true
           else if pyLower s ∈ boolWordsFalse then PyVal.pBool false
           else PyVal.pStr s) := rfl
  rw [hun, hf]
  rw [if_neg h1, if_neg h2]

/-- Helper: the string rendering of a float value is Union-coerced back to
that float (or, for the slash rendering, kept as the same string), so its
string rendering is unchanged. -/
theorem pyStr_fix_float (q : Rat) :
    pyStr (unionCoerceValue (PyVal.pStr (pyStr (PyVal.pFloat q))))
      = pyStr (PyVal.pFloat q) := by
  have hps : pyStr (PyVal.pFloat q) = pyStrOfRat q := rfl
  rw [hps]
  by_cases hden : q.den = 1
  · have hrt := pyStrOfRat_parse q hden
    have hun : unionCoerceValue (PyVal.pStr (pyStrOfRat q))
        = PyVal.pFloat q := by
      have h0 : unionCoerceValue (PyVal.pStr (pyStrOfRat q))
          = (match pyFloatOfChars (pyStrOfRat q).toList with
             | some q2 => PyVal.pFloat q2
             | none =>
               if pyLower (pyStrOfRat q) ∈ boolWordsTrue then PyVal.pBool true
               else if pyLower (pyStrOfRat q) ∈ boolWordsFalse then
                 PyVal.pBool false
               else PyVal.pStr (pyStrOfRat q)) := rfl
      rw [h0, hrt]
    rw [hun]
    exact hps
  · obtain ⟨hf, hs⟩ := pyStrOfRat_slash_parse q hden
    obtain ⟨hw1, hw2⟩ := pyLower_slash_not_words _ hs
    rw [unionCoerce_plain_str _ hf hw1 hw2]
    rfl

/-- Helper: the string rendering of a Union-coerced value is a fixpoint of
rendering after a further Union coercion. -/
theorem pyStr_fix (v : PyVal) :
    pyStr (unionCoerceValue (PyVal.pStr (pyStr (unionCoerceValue v))))
      = pyStr (unionCoerceValue v) := by
  rcases unionCoerce_cases v with ⟨q, hq⟩ | ⟨b, hb⟩ | ⟨s, hs, hf, hw1, hw2⟩
  · rw [hq]
    exact pyStr_fix_float q
  · rw [hb]
    cases b <;> decide
  · rw [hs]
    have hp : pyStr (PyVal.pStr s) = s := rfl
    rw [hp, unionCoerce_plain_str s hf hw1 hw2]
    exact hp

/-- Helper: the full value pipeline of the source — Union field coercion
followed by the per-tag coercer — is idempotent: a stored value is a
fixpoint of a second pass through the pipeline against the same tag. -/
theorem pipeline_idem (t : DataTypes) (v w : PyVal)
    (h : validate_value_type t (unionCoerceValue v) = Except.ok w) :
    validate_value_type t (unionCoerceValue w) = Except.ok w := by
  cases t with
  | number =>
    cases hq : pyFloat (unionCoerceValue v) with
    | ok q =>
      simp [validate_value_type, hq] at h
      subst h
      simp [validate_value_type, unionCoerceValue, pyFloat]
    | error e => simp [validate_value_type, hq] at h
  | boolean =>
    simp [validate_value_type] at h
    subst h
    cases hb : pyBool (unionCoerceValue v) <;>
      simp [validate_value_type, unionCoerceValue, pyBool]
  | text =>
    simp [validate_value_type] at h
    subst h
    simp [validate_value_type, pyStr_fix v]
  | structuredValue =>
    simp [validate_value_type] at h
    subst h
    simp [validate_value_type, pyStr_fix v]
  | relationship =>
    simp [validate_value_type] at h
    subst h
    simp [validate_value_type, pyStr_fix v]
  | dateTime =>
    simp [validate_value_type] at h
    subst h
    simp [validate_value_type, pyStr_fix v]
  | geoPoint =>
    simp [validate_value_type] at h
    subst h
    simp [validate_value_type, pyStr_fix v]

/-- Helper: shape facts about any successfully parsed attribute — its value
is a fixpoint of the full value pipeline (Union coercion then per-tag
coercion), and its stored metadata is either the empty mapping or None. -/
theorem parse_obj_shape (r : RawAttr) (a : ContextAttribute)
    (h : ContextAttribute.parse_obj r = Except.ok a) :
    validate_value_type a.type (unionCoerceValue a.value) = Except.ok a.value ∧
      (a.metadata = some [] ∨ a.metadata = none) := by
  unfold ContextAttribute.parse_obj at h
  split at h
  · exact absurd h (by simp)
  · rename_i tag heq
    split at h
    · exact absurd h (by simp)
    · rename_i v hv
      split at h
      · injection h with h2
        subst h2
        exact ⟨pipeline_idem tag r.value v hv, Or.inl rfl⟩
      · exact absurd h (by simp)
      · rename_i m hm
        injection h with h2
        subst h2
        refine ⟨pipeline_idem tag r.value v hv, ?_⟩
        cases m with
        | nil => exact Or.inl rfl
        | cons hd tl => exact Or.inr rfl

/-- Helper: an attribute whose value is a fixpoint of the full value
pipeline and whose stored metadata is the empty mapping is reproduced
unchanged by the re-parsing step of the dict views. -/
theorem reparse_ok (a : ContextAttribute)
    (hv : validate_value_type a.type (unionCoerceValue a.value)
      = Except.ok a.value)
    (hm : a.metadata = some []) :
    reparse_attr a = Except.ok a := by
  obtain ⟨t, v, m⟩ := a
  simp only at hv hm
  subst hm
  simp [reparse_attr, ContextAttribute.parse_obj, parseTypeTag_wireName, hv,
    validate_metadata_type]

/-- Helper: when every attribute of the list is reproduced by re-parsing,
the comprehension of the dict views returns exactly the filtered list. -/
theorem reparseFiltered_ok (p : String × ContextAttribute → Bool)
    (l : List (String × ContextAttribute))
    (h : ∀ kv ∈ l, reparse_attr kv.2 = Except.ok kv.2) :
    reparseFiltered p l = Except.ok (l.filter p) := by
  induction l with
  | nil => rfl
  | cons hd tl ih =>
    have hhd : reparse_attr hd.2 = Except.ok hd.2 :=
      h hd (List.mem_cons_self hd tl)
    have htl : ∀ kv ∈ tl, reparse_attr kv.2 = Except.ok kv.2 :=
      fun kv hkv => h kv (List.mem_cons_of_mem hd hkv)
    unfold reparseFiltered
    by_cases hp : p hd = true
    · simp [hp, hhd, ih htl, List.filter_cons_of_pos]
    · have hp2 : p hd = false := by
        cases hpb : p hd
        · rfl
        · exact absurd hpb hp
      simp [hp2, ih htl, List.filter_cons_of_neg]

/-- Helper: every attribute of a successfully parsed dynamic map is the
result of some attribute parse. -/
theorem parseProps_mem (data : List (String × RawAttr))
    (l : List (String × ContextAttribute))
    (h : parseProps data = Except.ok l) :
    ∀ kv ∈ l, ∃ r, ContextAttribute.parse_obj r = Except.ok kv.2 := by
  induction data generalizing l with
  | nil =>
    unfold parseProps at h
    injection h with h2
    subst h2
    intro kv hkv
    exact absurd hkv (List.not_mem_nil kv)
  | cons hd tl ih =>
    obtain ⟨k, r⟩ := hd
    unfold parseProps at h
    split at h
    · exact ih l h
    · split at h
      · exact absurd h (by simp)
      · rename_i a ha
        split at h
        · exact absurd h (by simp)
        · rename_i tail htail
          injection h with h2
          subst h2
          intro kv hkv
          rcases List.mem_cons.mp hkv with hkv | hkv
          · subst hkv
            exact ⟨r, ha⟩
          · exact ih tail htail kv hkv

/-- Helper: if some dynamic key of the raw data fails to parse, the whole
comprehension fails, and it fails with an error that is itself the parse
error of one of the dynamic attributes. -/
theorem parseProps_fails (data : List (String × RawAttr)) (k : String)
    (r : RawAttr) (err : VErr)
    (hmem : (k, r) ∈ data) (hk : ¬(k = "id" ∨ k = "type"))
    (hr : ContextAttribute.parse_obj r = Except.error err) :
    ∃ e, parseProps data = Except.error e ∧
      ∃ k2 r2, (k2, r2) ∈ data ∧ ¬(k2 = "id" ∨ k2 = "type") ∧
        ContextAttribute.parse_obj r2 = Except.error e := by
  induction data with
  | nil => exact absurd hmem (List.not_mem_nil _)
  | cons hd tl ih =>
    obtain ⟨k0, r0⟩ := hd
    by_cases h0 : k0 = "id" ∨ k0 = "type"
    · have hmem2 : (k, r) ∈ tl := by
        rcases List.mem_cons.mp hmem with heq | h2
        · injection heq with he1 he2
          subst he1
          exact absurd h0 hk
        · exact h2
      obtain ⟨e, he, k2, r2, hm2, hk2, hp2⟩ := ih hmem2
      refine ⟨e, ?_, k2, r2, List.mem_cons_of_mem _ hm2, hk2, hp2⟩
      unfold parseProps
      rw [if_pos h0]
      exact he
    · cases hp0 : ContextAttribute.parse_obj r0 with
      | error e0 =>
        refine ⟨e0, ?_, k0, r0, List.mem_cons_self _ _, h0, hp0⟩
        unfold parseProps
        rw [if_neg h0, hp0]
      | ok a0 =>
        have hmem2 : (k, r) ∈ tl := by
          rcases List.mem_cons.mp hmem with heq | h2
          · injection heq with he1 he2
            subst he1
            subst he2
            rw [hr] at hp0
            exact absurd hp0 (by simp)
          · exact h2
        obtain ⟨e, he, k2, r2, hm2, hk2, hp2⟩ := ih hmem2
        refine ⟨e, ?_, k2, r2, List.mem_cons_of_mem _ hm2, hk2, hp2⟩
        unfold parseProps
        rw [if_neg h0, hp0, he]

/-- Helper: on an attribute whose metadata slot is absent or the empty
mapping, the amended-claim canonicalization and the source parse agree: the
parsed attribute serializes to the canonical wire object. -/
theorem specCanonAttrFull_roundtrip (r : RawAttr) (fa : FlatAttr)
    (hmd : r.metadata = RawMeta.absent ∨ r.metadata = RawMeta.dict [])
    (h : specCanonAttrFull r = Except.ok fa) :
    ∃ a, ContextAttribute.parse_obj r = Except.ok a ∧ serializeAttr a = fa := by
  unfold specCanonAttrFull at h
  split at h
  · exact absurd h (by simp)
  · rename_i tag htag
    rw [specCoerceValueFull_eq] at h
    split at h
    · exact absurd h (by simp)
    · rename_i v hv
      injection h with h2
      subst h2
      rcases hmd with hm | hm
      · refine ⟨⟨tag, v, some []⟩, ?_, ?_⟩
        · simp [ContextAttribute.parse_obj, htag, hv, hm]
        · simp [serializeAttr, hm]
      · refine ⟨⟨tag, v, some []⟩, ?_, ?_⟩
        · simp [ContextAttribute.parse_obj, htag, hv, hm, validate_metadata_type]
        · simp [serializeAttr, hm]

/-- Helper: the list version of the attribute round trip, relating the
comprehension of the entity constructor to the amended-claim
canonicalization of the attribute list. -/
theorem specCanonListFull_roundtrip (data : List (String × RawAttr))
    (hmd : ∀ kv ∈ data,
      kv.2.metadata = RawMeta.absent ∨ kv.2.metadata = RawMeta.dict [])
    (hkeys : ∀ kv ∈ data, ¬(kv.1 = "id" ∨ kv.1 = "type"))
    (l : List (String × FlatAttr))
    (h : specCanonListFull data = Except.ok l) :
    ∃ l2, parseProps data = Except.ok l2 ∧
      l2.map (fun kv => (kv.1, serializeAttr kv.2)) = l := by
  induction data generalizing l with
  | nil =>
    unfold specCanonListFull at h
    injection h with h2
    subst h2
    exact ⟨[], rfl, rfl⟩
  | cons hd tl ih =>
    obtain ⟨k, r⟩ := hd
    unfold specCanonListFull at h
    split at h
    · exact absurd h (by simp)
    · rename_i fa hfa
      split at h
      · exact absurd h (by simp)
      · rename_i tail htail
        injection h with h2
        subst h2
        obtain ⟨a, hpa, hsa⟩ :=
          specCanonAttrFull_roundtrip r fa (hmd (k, r) (by simp)) hfa
        obtain ⟨l2, hl2, hmap⟩ :=
          ih (fun kv hkv => hmd kv (by simp [hkv]))
            (fun kv hkv => hkeys kv (by simp [hkv])) tail htail
        refine ⟨(k, a) :: l2, ?_, ?_⟩
        · unfold parseProps
          rw [if_neg (hkeys (k, r) (by simp)), hpa, hl2]
        · simp [hmap, hsa]

/-- C3: value validation has exactly three branches — the boolean tag stores
the truthiness coercion of the value, the number tag stores its float
coercion and fails with the coercion error exactly when the float coercion
fails (in particular the attribute payload with tag Number and value abc is
rejected with typeCoercionError), and every other tag stores the string
representation, which always succeeds. -/
theorem c3_value_coercion_branches (t : DataTypes) (v : PyVal) :
    (t = DataTypes.boolean →
      validate_value_type t v = Except.ok (PyVal.pBool (pyBool v))) ∧
    (t = DataTypes.number → ∀ e, pyFloat v = Except.error e →
      validate_value_type t v = Except.error e) ∧
    (t = DataTypes.number → ∀ q, pyFloat v = Except.ok q →
      validate_value_type t v = Except.ok (PyVal.pFloat q)) ∧
    (t ≠ DataTypes.boolean → t ≠ DataTypes.number →
      validate_value_type t v = Except.ok (PyVal.pStr (pyStr v))) ∧
    ContextAttribute.parse_obj ⟨some "Number", PyVal.pStr "abc", RawMeta.absent⟩
      = Except.error VErr.typeCoercionError := by
  refine ⟨?_, ?_, ?_, ?_, by decide⟩
  · intro ht
    subst ht
    rfl
  · intro ht e he
    subst ht
    simp [validate_value_type, he]
  · intro ht q hq
    subst ht
    simp [validate_value_type, hq]
  · intro h1 h2
    cases t <;> first | rfl | exact absurd rfl h1 | exact absurd rfl h2

/-- Witness for C3 at concrete inputs: the boolean branch on the integer 5
stores true, and the text branch on the integer 5 stores the string 5. -/
theorem c3_witness :
    validate_value_type DataTypes.boolean (PyVal.pInt 5)
        = Except.ok (PyVal.pBool true) ∧
    validate_value_type DataTypes.text (PyVal.pInt 5)
        = Except.ok (PyVal.pStr "5") :=
  ⟨(c3_value_coercion_branches DataTypes.boolean (PyVal.pInt 5)).1 rfl,
   (c3_value_coercion_branches DataTypes.text (PyVal.pInt 5)).2.2.2.1
     (by decide) (by decide)⟩

/-- C9: value coercion is idempotent — any value the coercer has produced
for a tag is mapped to itself by a second application against that tag. -/
theorem c9_coercion_idempotent (t : DataTypes) (v w : PyVal)
    (h : validate_value_type t v = Except.ok w) :
    validate_value_type t w = Except.ok w :=
  validate_value_type_idem t v w h

/-- Witness for C9: coercing the integer 7 with the number tag yields the
float 7, which the coercer maps to itself. -/
theorem c9_witness :
    validate_value_type DataTypes.number (PyVal.pFloat 7)
      = Except.ok (PyVal.pFloat 7) :=
  c9_coercion_idempotent DataTypes.number (PyVal.pInt 7) (PyVal.pFloat 7)
    (by decide)

/-- C5: contrary to the claim, every one of the four reserved names is
accepted by the name validation of NamedContextAttribute — the negative
lookahead of the regex sits after the fully anchored group and is therefore
evaluated at the end-of-string position, where it always succeeds. In
particular the named attribute with name id, type Text and value x is
constructed successfully. -/
theorem c5_reserved_names_accepted :
    NamedContextAttribute.parse "id"
        ⟨some "Text", PyVal.pStr "x", RawMeta.absent⟩
      = Except.ok ⟨⟨DataTypes.text, PyVal.pStr "x", some []⟩, "id"⟩ ∧
    validate_name "id" = Except.ok "id" ∧
    validate_name "type" = Except.ok "type" ∧
    validate_name "geo:distance" = Except.ok "geo:distance" ∧
    validate_name "*" = Except.ok "*" := by decide

/-- C6: contrary to the claim, strings containing whitespace or control
characters pass the FIWARE-safe validation — the character class of the
regex is the full range x00..x7F minus only the four punctuation
characters, so a space or a tab is accepted for an entity id and for an
attribute name. -/
theorem c6_whitespace_and_control_accepted :
    construct "a b" "Room" [] = Except.ok ⟨"a b", "Room", []⟩ ∧
    validate_fiware_string "a\x09b" = Except.ok "a\x09b" ∧
    validate_name "a b" = Except.ok "a b" := by decide

/-- C7: the empty metadata mapping is stored as-is, but contrary to the
claim a NON-empty metadata mapping is not parsed into a Metadata record —
the validator falls through every branch and the stored metadata becomes
None, silently discarding the supplied mapping. -/
theorem c7_nonempty_metadata_dropped :
    ContextAttribute.parse_obj ⟨some "Text", PyVal.pStr "x",
        RawMeta.dict [("value", PyVal.pStr "m")]⟩
      = Except.ok ⟨DataTypes.text, PyVal.pStr "x", none⟩ ∧
    ContextAttribute.parse_obj ⟨some "Text", PyVal.pStr "x", RawMeta.dict []⟩
      = Except.ok ⟨DataTypes.text, PyVal.pStr "x", some []⟩ := by decide

/-- C8: on a mapping argument add_properties merges as the claim states —
from attributes a and b, overwriting a leaves b untouched — but on a
non-empty sequence argument the normalization comprehension raises a
TypeError (keyword unpacking of a pydantic model, which is not a mapping),
so the sequence form of the claim fails on the code. -/
theorem c8_add_properties_behavior :
    add_properties ⟨"E8", "T",
        [("a", ⟨DataTypes.number, PyVal.pFloat 1, some []⟩),
         ("b", ⟨DataTypes.number, PyVal.pFloat 2, some []⟩)]⟩
        (AttrsArg.dict [("a", ⟨DataTypes.number, PyVal.pFloat 3, some []⟩)])
      = Except.ok ⟨"E8", "T",
        [("a", ⟨DataTypes.number, PyVal.pFloat 3, some []⟩),
         ("b", ⟨DataTypes.number, PyVal.pFloat 2, some []⟩)]⟩ ∧
    add_properties ⟨"E8", "T",
        [("a", ⟨DataTypes.number, PyVal.pFloat 1, some []⟩),
         ("b", ⟨DataTypes.number, PyVal.pFloat 2, some []⟩)]⟩
        (AttrsArg.list [⟨⟨DataTypes.text, PyVal.pStr "x", some []⟩, "c"⟩])
      = Except.error VErr.typeUnpackError := by decide

/-- C10: contrary to the claim, the schema factory installs a validator
hardcoded to the field temperature, so model creation fails with a
ConfigError for any sample payload lacking a temperature attribute; when
the sample does contain one, the required dynamic fields are exactly the
sample keys outside id and type. -/
theorem c10_factory_requires_temperature :
    create_context_entity_model (some "M") ["id", "type", "pressure"]
      = Except.error VErr.configError ∧
    create_context_entity_model (some "M")
        ["id", "type", "temperature", "pressure"]
      = Except.ok ⟨"M", ["temperature", "pressure"]⟩ := by decide

/-- C1 counterexample: the claim fails as stated in two independent ways.
First, a well-formed flat object carrying one attribute with a non-empty
metadata mapping does not round-trip: the metadata is dropped to null by
construction while the canonicalization of the claim reproduces it. Second,
even with empty metadata the stored value is not the plain per-tag coercion
of the raw scalar: the Union field coercion turns the integer 20 under a
Text tag into the float 20.0 before the string coercion runs, so
serialization yields the string 20.0 where the claim canonicalization
yields the string 20. -/
theorem c1_counterexample :
    ((construct "E1" "Room"
        [("a", ⟨some "Text", PyVal.pStr "x",
                RawMeta.dict [("value", PyVal.pStr "m")]⟩)]).map serialize
      ≠ specCanonEntity "E1" "Room"
        [("a", ⟨some "Text", PyVal.pStr "x",
                RawMeta.dict [("value", PyVal.pStr "m")]⟩)]) ∧
    ((construct "E1" "Room"
        [("a", ⟨some "Text", PyVal.pInt 20, RawMeta.absent⟩)]).map serialize
      ≠ specCanonEntity "E1" "Room"
        [("a", ⟨some "Text", PyVal.pInt 20, RawMeta.absent⟩)]) := by decide

/-- C1 (amended): for every well-formed flat entity object whose attribute
metadata slots are absent or empty, serializing the entity produced by
construct reproduces the canonicalized original, where canonical value
coercion is the full host pipeline — the Union field coercion of the
declared value type first (numeric-looking values to float, boolean words
to bool), then the per-tag coercion (numbers to float, booleans to
truthiness, other values to string) — and the default empty metadata field
is inserted. -/
theorem c1_round_trip (id type_ : String) (data : List (String × RawAttr))
    (flat : FlatEntity)
    (hid : validate_fiware_string id = Except.ok id)
    (hty : validate_fiware_string type_ = Except.ok type_)
    (hkeys : ∀ kv ∈ data, ¬(kv.1 = "id" ∨ kv.1 = "type"))
    (hmd : ∀ kv ∈ data,
      kv.2.metadata = RawMeta.absent ∨ kv.2.metadata = RawMeta.dict [])
    (hflat : specCanonEntityFull id type_ data = Except.ok flat) :
    (construct id type_ data).map serialize = Except.ok flat := by
  unfold specCanonEntityFull at hflat
  split at hflat
  · exact absurd hflat (by simp)
  · rename_i attrs hattrs
    injection hflat with h2
    subst h2
    obtain ⟨l2, hl2, hmap⟩ :=
      specCanonListFull_roundtrip data hmd hkeys attrs hattrs
    unfold construct
    rw [hl2, hid, hty]
    simp [serialize, Except.map, hmap]

/-- Witness for C1 at the basic construction example of the spec: the flat
object with a Number attribute of integer value 20 round-trips with the
value coerced to the float 20 and the empty metadata inserted. -/
theorem c1_witness :
    (construct "Bcn-Welt" "Room"
        [("temperature", ⟨some "Number", PyVal.pInt 20, RawMeta.absent⟩)]).map
        serialize
      = Except.ok ⟨"Bcn-Welt", "Room",
          [("temperature", ⟨"Number", PyVal.pFloat 20, some []⟩)]⟩ :=
  c1_round_trip "Bcn-Welt" "Room"
    [("temperature", ⟨some "Number", PyVal.pInt 20, RawMeta.absent⟩)]
    ⟨"Bcn-Welt", "Room", [("temperature", ⟨"Number", PyVal.pFloat 20, some []⟩)]⟩
    (by decide) (by decide) (by decide) (by decide) (by decide)

/-- C2: when any dynamic attribute of the raw data is malformed, entity
construction fails as a whole — no entity is produced — and the error it
fails with is itself the parse error of one of the supplied attributes,
propagated unmodified. -/
theorem c2_construction_atomic (id type_ : String)
    (data : List (String × RawAttr)) (k : String) (r : RawAttr) (err : VErr)
    (hmem : (k, r) ∈ data) (hk1 : k ≠ "id") (hk2 : k ≠ "type")
    (hr : ContextAttribute.parse_obj r = Except.error err) :
    ∃ e, construct id type_ data = Except.error e ∧
      ∃ k2 r2, (k2, r2) ∈ data ∧
        ContextAttribute.parse_obj r2 = Except.error e := by
  obtain ⟨e, he, k2, r2, hm2, hk2b, hp2⟩ :=
    parseProps_fails data k r err hmem
      (by
        intro hor
        rcases hor with h | h
        · exact hk1 h
        · exact hk2 h)
      hr
  refine ⟨e, ?_, k2, r2, hm2, hp2⟩
  unfold construct
  rw [he]

/-- Witness for C2: a raw object with one valid Text attribute and one
Number attribute whose value abc cannot be coerced fails as a whole, with
the coercion error of the bad attribute. -/
theorem c2_witness :
    ∃ e, construct "MyId" "MyType"
        [("good", ⟨some "Text", PyVal.pStr "ok", RawMeta.absent⟩),
         ("bad", ⟨some "Number", PyVal.pStr "abc", RawMeta.absent⟩)]
      = Except.error e ∧
      ∃ k2 r2, (k2, r2) ∈
          [("good", (⟨some "Text", PyVal.pStr "ok", RawMeta.absent⟩ : RawAttr)),
           ("bad", ⟨some "Number", PyVal.pStr "abc", RawMeta.absent⟩)] ∧
        ContextAttribute.parse_obj r2 = Except.error e :=
  c2_construction_atomic "MyId" "MyType"
    [("good", ⟨some "Text", PyVal.pStr "ok", RawMeta.absent⟩),
     ("bad", ⟨some "Number", PyVal.pStr "abc", RawMeta.absent⟩)]
    "bad" ⟨some "Number", PyVal.pStr "abc", RawMeta.absent⟩
    VErr.typeCoercionError (by decide) (by decide) (by decide) (by decide)

/-- C4 counterexample: an entity constructed from an attribute carrying a
non-empty metadata mapping stores that metadata as None, and the dict view
of get_properties then fails when re-parsing the attribute — so on this
constructed entity the two views do not return a partition of the attribute
map and the claim fails as stated. -/
theorem c4_counterexample :
    construct "E" "Room"
        [("a", ⟨some "Text", PyVal.pStr "x",
                RawMeta.dict [("value", PyVal.pStr "m")]⟩)]
      = Except.ok ⟨"E", "Room",
          [("a", ⟨DataTypes.text, PyVal.pStr "x", none⟩)]⟩ ∧
    get_properties_dict
        ⟨"E", "Room", [("a", ⟨DataTypes.text, PyVal.pStr "x", none⟩)]⟩
      = Except.error VErr.typeUnpackError := by decide

/-- C4 (amended): for every constructed entity none of whose attributes
carries the dropped-to-None metadata (equivalently, none was supplied a
non-empty metadata mapping), the dict views of get_properties and
get_relationships succeed, are disjoint, and together are a permutation of
the full attribute map — properties being the attributes whose tag is not
the relationship tag and relationships those whose tag is. -/
theorem c4_partition (id type_ : String) (data : List (String × RawAttr))
    (e : ContextEntity)
    (hc : construct id type_ data = Except.ok e)
    (hmd : ∀ kv ∈ e.attrs, kv.2.metadata ≠ none) :
    ∃ ps rs, get_properties_dict e = Except.ok ps ∧
      get_relationships_dict e = Except.ok rs ∧
      (∀ kv, kv ∈ ps → ¬ kv ∈ rs) ∧
      (ps ++ rs).Perm e.attrs := by
  have hattrs : parseProps data = Except.ok e.attrs := by
    unfold construct at hc
    split at hc
    · exact absurd hc (by simp)
    · rename_i attrs ha
      split at hc
      · exact absurd hc (by simp)
      · rename_i i hi
        split at hc
        · exact absurd hc (by simp)
        · rename_i t ht
          injection hc with h2
          subst h2
          exact ha
  have hre : ∀ kv ∈ e.attrs, reparse_attr kv.2 = Except.ok kv.2 := by
    intro kv hkv
    obtain ⟨r, hr⟩ := parseProps_mem data e.attrs hattrs kv hkv
    obtain ⟨hfix, hm⟩ := parse_obj_shape r kv.2 hr
    rcases hm with hm | hm
    · exact reparse_ok kv.2 hfix hm
    · exact absurd hm (hmd kv hkv)
  refine ⟨_, _, reparseFiltered_ok _ e.attrs hre,
    reparseFiltered_ok _ e.attrs hre, ?_, ?_⟩
  · intro kv h1 h2
    rw [List.mem_filter] at h1 h2
    have hb1 := h1.2
    have hb2 := h2.2
    simp at hb1 hb2
    exact absurd hb2 hb1
  · have hperm := List.filter_append_perm
      (fun kv : String × ContextAttribute =>
        !(kv.2.type == DataTypes.relationship)) e.attrs
    simpa only [Bool.not_not] using hperm

/-- Witness for C4: a constructed entity with one Number property and one
Relationship attribute, on which the two dict views return the expected
disjoint partition. -/
theorem c4_witness :
    ∃ ps rs,
      get_properties_dict ⟨"E4", "Room",
          [("temp", ⟨DataTypes.number, PyVal.pFloat 5, some []⟩),
           ("owner", ⟨DataTypes.relationship, PyVal.pStr "X", some []⟩)]⟩
        = Except.ok ps ∧
      get_relationships_dict ⟨"E4", "Room",
          [("temp", ⟨DataTypes.number, PyVal.pFloat 5, some []⟩),
           ("owner", ⟨DataTypes.relationship, PyVal.pStr "X", some []⟩)]⟩
        = Except.ok rs ∧
      (∀ kv, kv ∈ ps → ¬ kv ∈ rs) ∧
      (ps ++ rs).Perm (ContextEntity.attrs ⟨"E4", "Room",
          [("temp", ⟨DataTypes.number, PyVal.pFloat 5, some []⟩),
           ("owner", ⟨DataTypes.relationship, PyVal.pStr "X", some []⟩)]⟩) :=
  c4_partition "E4" "Room"
    [("temp", ⟨some "Number", PyVal.pInt 5, RawMeta.absent⟩),
     ("owner", ⟨some "Relationship", PyVal.pStr "X", RawMeta.absent⟩)]
    ⟨"E4", "Room",
      [("temp", ⟨DataTypes.number, PyVal.pFloat 5, some []⟩),
       ("owner", ⟨DataTypes.relationship, PyVal.pStr "X", some []⟩)]⟩
    (by decide) (by decide)
